import Mathlib

/-!
Verification of the NOTAM-to-geometry subsystem of `shockwave_planner_v2`.

The Python source lives in `gui/views/map_view.py` (duplicated in
`gui/map_view.py`): class `NotamParser` with `parse_coordinate`,
`parse_notam_area`, `calculate_polygon_center`, and method
`MapView.calculate_great_circle_info`.

Modelling conventions:
* Python strings are modelled as `List Char`; the relevant whitespace and
  digit classes are restricted to their ASCII fragments.
* Python float arithmetic on coordinates is modelled exactly: `ℚ` for the
  parser/centroid (all operations are field operations on small rationals)
  and `ℝ` for the trigonometric great-circle computation.
* `None` returns are modelled as `Option.none`.
-/

/-- ASCII fragment of Python's whitespace class (used both by `str.strip()`
and by the regex class `\s`): space, tab, LF, VT, FF, CR. -/
def pySpace (c : Char) : Bool :=
  c == ' ' || c == '\t' || c == '\n' || c == '\r' || c.toNat == 11 || c.toNat == 12

/-- Python `s.strip()`: remove leading and trailing whitespace. -/
def pyStrip (cs : List Char) : List Char :=
  ((cs.dropWhile pySpace).reverse.dropWhile pySpace).reverse

/-- ASCII fragment of the regex class `\d`. -/
def isDig (c : Char) : Bool := 48 ≤ c.toNat && c.toNat ≤ 57

/-- Numeric value of a digit character. -/
def digitVal (c : Char) : ℕ := c.toNat - 48

/-- `int()` of a two-digit group. -/
def val2 (a b : Char) : ℕ := 10 * digitVal a + digitVal b

/-- `int()` of a three-digit group. -/
def val3 (a b c : Char) : ℕ := 100 * digitVal a + 10 * digitVal b + digitVal c

/-- `NotamParser.parse_coordinate`: strip the input, then
`re.match(r'([NS])(\d{2})(\d{2})(\d{2})([EW])(\d{3})(\d{2})(\d{2})', ...)`.
`re.match` anchors only at the start of the string, so characters after a
matching 15-character prefix are ignored.  On success the groups are decoded
as `deg + min/60 + sec/3600`, negated for `S`/`W`. -/
def parse_coordinate (coord_str : List Char) : Option (ℚ × ℚ) :=
  match pyStrip coord_str with
  | latD :: a1 :: a2 :: b1 :: b2 :: c1 :: c2 :: lonD :: e1 :: e2 :: e3 :: f1 :: f2 :: g1 :: g2 :: _ =>
    if (latD == 'N' || latD == 'S') && isDig a1 && isDig a2 && isDig b1 && isDig b2 &&
        isDig c1 && isDig c2 && (lonD == 'E' || lonD == 'W') && isDig e1 && isDig e2 &&
        isDig e3 && isDig f1 && isDig f2 && isDig g1 && isDig g2 then
      let lat : ℚ := (val2 a1 a2 : ℚ) + (val2 b1 b2 : ℚ) / 60 + (val2 c1 c2 : ℚ) / 3600
      let lon : ℚ := (val3 e1 e2 e3 : ℚ) + (val2 f1 f2 : ℚ) / 60 + (val2 g1 g2 : ℚ) / 3600
      some ((if latD == 'S' then -lat else lat), (if lonD == 'W' then -lon else lon))
    else none
  | _ => none

/-- One position of `re.search(r'BOUNDED BY:\s*([^.]+)', text, re.IGNORECASE)`:
if the regex matches at the head of `cs`, return the contents of the capture
group.  `\s*` is greedy but backtracks so that `[^.]+` can still take one
whitespace character when the span after the whitespace starts with `'.'`
or is empty; the match fails when nothing follows the marker or a period
follows it immediately. -/
def matchBoundedAt (cs : List Char) : Option (List Char) :=
  if (cs.take 11).map Char.toUpper = "BOUNDED BY:".data then
    match cs.drop 11 with
    | [] => none
    | c :: rest =>
      if c == '.' then none
      else
        match (c :: rest).dropWhile pySpace with
        | [] => some [((c :: rest).takeWhile pySpace).getLastD ' ']
        | c2 :: r2 =>
          if c2 == '.' then some [((c :: rest).takeWhile pySpace).getLastD ' ']
          else some ((c2 :: r2).takeWhile (fun d => d != '.'))
  else none

/-- `re.search` tries every start position from the left and returns the
first match. -/
def searchBounded : List Char → Option (List Char)
  | [] => none
  | c :: rest =>
    match matchBoundedAt (c :: rest) with
    | some cap => some cap
    | none => searchBounded rest

/-- Does the regex `[NS]\d{6}[EW]\d{7}` match at the head of the list? -/
def isTok15 (cs : List Char) : Bool :=
  match cs with
  | latD :: a1 :: a2 :: b1 :: b2 :: c1 :: c2 :: lonD :: e1 :: e2 :: e3 :: f1 :: f2 :: g1 :: g2 :: _ =>
    (latD == 'N' || latD == 'S') && isDig a1 && isDig a2 && isDig b1 && isDig b2 &&
      isDig c1 && isDig c2 && (lonD == 'E' || lonD == 'W') && isDig e1 && isDig e2 &&
      isDig e3 && isDig f1 && isDig f2 && isDig g1 && isDig g2
  | _ => false

/-- Scanner for `re.findall(r'[NS]\d{6}[EW]\d{7}', ...)`: left-to-right,
non-overlapping; on a match the 15 matched characters are emitted and the
scan resumes after them, otherwise the scan advances one character.  The
fuel argument (instantiated with the list length) makes the recursion
structural. -/
def scanAux : ℕ → List Char → List (List Char)
  | 0, _ => []
  | _ + 1, [] => []
  | fuel + 1, c :: rest =>
    if isTok15 (c :: rest) then (c :: rest).take 15 :: scanAux fuel (rest.drop 14)
    else scanAux fuel rest

/-- All matches of `re.findall(r'[NS]\d{6}[EW]\d{7}', ...)`. -/
def scanTokens (cs : List Char) : List (List Char) := scanAux cs.length cs

/-- `NotamParser.parse_notam_area`: search for the `BOUNDED BY:` span,
collect the coordinate tokens inside it, decode each with
`parse_coordinate`, and return `None` when no span or no token or no
decodable token is found. -/
def parse_notam_area (notam_text : List Char) : Option (List (ℚ × ℚ)) :=
  match searchBounded notam_text with
  | none => none
  | some bounded_text =>
    let coord_strings := scanTokens bounded_text
    if coord_strings = [] then none
    else
      let coordinates := coord_strings.filterMap parse_coordinate
      if coordinates = [] then none else some coordinates

/-- `NotamParser.calculate_polygon_center`: `None` on an empty list,
otherwise the componentwise `np.mean` (sum divided by length). -/
def calculate_polygon_center (coordinates : List (ℚ × ℚ)) : Option (ℚ × ℚ) :=
  if coordinates = [] then none
  else some ((coordinates.map Prod.fst).sum / coordinates.length,
             (coordinates.map Prod.snd).sum / coordinates.length)

example : parse_coordinate ("X301900E1103700".data) = none := by decide
example : parse_notam_area ("no marker here".data) = none := by decide
example : scanTokens (", BACK TO START".data) = [] := by decide
example : searchBounded ("...BOUNDED BY: N123456E1234567, END.".data)
    = some ("N123456E1234567, END".data) := by decide

/-! ### Structured coordinate tokens

`RawToken` is the abstract content of one 15-character coordinate token
`[NS]DDMMSS[EW]DDDMMSS`; `renderToken` prints it and `decodeToken` is the
decimal-degree value the specification assigns to it. -/

/-- Abstract fields of a coordinate token. -/
structure RawToken where
  latS : Bool
  latDeg : ℕ
  latMin : ℕ
  latSec : ℕ
  lonW : Bool
  lonDeg : ℕ
  lonMin : ℕ
  lonSec : ℕ
deriving DecidableEq

/-- Well-formedness: each numeric field fits its fixed-width digit group.
(No bound of 60 on minutes/seconds: any two-digit value is allowed.) -/
def WFToken (t : RawToken) : Prop :=
  t.latDeg < 100 ∧ t.latMin < 100 ∧ t.latSec < 100 ∧
  t.lonDeg < 1000 ∧ t.lonMin < 100 ∧ t.lonSec < 100

instance (t : RawToken) : Decidable (WFToken t) := by unfold WFToken; infer_instance

/-- The digit character for `n`
(only the last decimal digit of `n` is used, keeping the code total). -/
def digitChar (n : ℕ) : Char := Char.ofNat (48 + n % 10)

/-- Print a token in the `[NS]DDMMSS[EW]DDDMMSS` format. -/
def renderToken (t : RawToken) : List Char :=
  (if t.latS then 'S' else 'N') ::
    digitChar (t.latDeg / 10) :: digitChar t.latDeg ::
    digitChar (t.latMin / 10) :: digitChar t.latMin ::
    digitChar (t.latSec / 10) :: digitChar t.latSec ::
    (if t.lonW then 'W' else 'E') ::
    digitChar (t.lonDeg / 100) :: digitChar (t.lonDeg / 10) :: digitChar t.lonDeg ::
    digitChar (t.lonMin / 10) :: digitChar t.lonMin ::
    digitChar (t.lonSec / 10) :: digitChar t.lonSec :: []

/-- The decimal-degree value of a token per the spec:
`deg + min/60 + sec/3600`, negated for `S` / `W`. -/
def decodeToken (t : RawToken) : ℚ × ℚ :=
  ((if t.latS then -1 else 1) * ((t.latDeg : ℚ) + (t.latMin : ℚ) / 60 + (t.latSec : ℚ) / 3600),
   (if t.lonW then -1 else 1) * ((t.lonDeg : ℚ) + (t.lonMin : ℚ) / 60 + (t.lonSec : ℚ) / 3600))

/-! ### Character-level facts -/

theorem digitChar_lt (k : ℕ) : k % 10 < 10 := Nat.mod_lt _ (by norm_num)

theorem pySpace_digitChar (k : ℕ) : pySpace (digitChar k) = false := by
  have h : k % 10 < 10 := digitChar_lt k
  unfold digitChar
  revert h
  generalize k % 10 = r
  intro h
  interval_cases r <;> decide

theorem isDig_digitChar (k : ℕ) : isDig (digitChar k) = true := by
  have h : k % 10 < 10 := digitChar_lt k
  unfold digitChar
  revert h
  generalize k % 10 = r
  intro h
  interval_cases r <;> decide

theorem digitVal_digitChar (k : ℕ) : digitVal (digitChar k) = k % 10 := by
  have h : k % 10 < 10 := digitChar_lt k
  unfold digitChar digitVal
  revert h
  generalize k % 10 = r
  intro h
  interval_cases r <;> decide

theorem digitChar_bne_dot (k : ℕ) : (digitChar k != '.') = true := by
  have h : k % 10 < 10 := digitChar_lt k
  unfold digitChar
  revert h
  generalize k % 10 = r
  intro h
  interval_cases r <;> decide

theorem dirLat_pySpace (b : Bool) : pySpace (if b then 'S' else 'N') = false := by
  cases b <;> decide

theorem dirLat_bne_dot (b : Bool) : ((if b then 'S' else 'N') != '.') = true := by
  cases b <;> decide

theorem dirLat_ok (b : Bool) :
    (((if b then 'S' else 'N') == 'N') || ((if b then 'S' else 'N') == 'S')) = true := by
  cases b <;> decide

theorem dirLon_pySpace (b : Bool) : pySpace (if b then 'W' else 'E') = false := by
  cases b <;> decide

theorem dirLon_bne_dot (b : Bool) : ((if b then 'W' else 'E') != '.') = true := by
  cases b <;> decide

theorem dirLon_ok (b : Bool) :
    (((if b then 'W' else 'E') == 'E') || ((if b then 'W' else 'E') == 'W')) = true := by
  cases b <;> decide

/-! ### `pyStrip` lemmas -/

theorem dropWhile_append_all {p : Char → Bool} :
    ∀ {l1 : List Char} (l2 : List Char), (∀ c ∈ l1, p c = true) →
      (l1 ++ l2).dropWhile p = l2.dropWhile p := by
  intro l1
  induction l1 with
  | nil => intro l2 _; rfl
  | cons a l ih =>
    intro l2 h
    rw [List.cons_append, List.dropWhile_cons, h a (by simp)]
    simp only [if_true]
    exact ih l2 (fun c hc => h c (by simp [hc]))

theorem takeWhile_append_all {p : Char → Bool} :
    ∀ {l1 : List Char} (l2 : List Char), (∀ c ∈ l1, p c = true) →
      (l1 ++ l2).takeWhile p = l1 ++ l2.takeWhile p := by
  intro l1
  induction l1 with
  | nil => intro l2 _; rfl
  | cons a l ih =>
    intro l2 h
    rw [List.cons_append, List.takeWhile_cons, h a (by simp)]
    simp only [if_true, List.cons_append, List.cons_inj_right]
    exact ih l2 (fun c hc => h c (by simp [hc]))

theorem dropWhile_append_ne {p : Char → Bool} :
    ∀ {l1 : List Char} (l2 : List Char), l1.dropWhile p ≠ [] →
      (l1 ++ l2).dropWhile p = l1.dropWhile p ++ l2 := by
  intro l1
  induction l1 with
  | nil => intro l2 h; exact absurd rfl h
  | cons a l ih =>
    intro l2 h
    by_cases hp : p a = true
    · have h' : l.dropWhile p ≠ [] := by
        rw [List.dropWhile_cons, hp] at h
        simpa using h
      simp only [List.cons_append, List.dropWhile_cons, hp, if_true]
      exact ih l2 h'
    · rw [Bool.not_eq_true] at hp
      simp only [List.cons_append, List.dropWhile_cons, hp]
      simp

theorem dropWhile_of_head {p : Char → Bool} (c : Char) (cs : List Char) (h : p c = false) :
    (c :: cs).dropWhile p = c :: cs := by
  rw [List.dropWhile_cons, h]
  simp

/-- Stripping a list whose characters are all non-whitespace changes nothing. -/
theorem pyStrip_of_no_space (l : List Char) (h : ∀ c ∈ l, pySpace c = false) :
    pyStrip l = l := by
  have key : ∀ m : List Char, (∀ c ∈ m, pySpace c = false) → m.dropWhile pySpace = m := by
    intro m hm
    cases m with
    | nil => rfl
    | cons a as => exact dropWhile_of_head a as (hm a (by simp))
  rw [pyStrip, key l h, key l.reverse (fun c hc => h c (List.mem_reverse.mp hc)),
    List.reverse_reverse]

/-- Appending junk after a whitespace-free non-empty token only strips
inside the junk: the stripped result still starts with the full token. -/
theorem pyStrip_token_append (tok junk : List Char) (hne : tok ≠ [])
    (h : ∀ c ∈ tok, pySpace c = false) :
    pyStrip (tok ++ junk) = tok ++ (junk.reverse.dropWhile pySpace).reverse := by
  obtain ⟨c, cs, rfl⟩ : ∃ c cs, tok = c :: cs := by
    cases tok with
    | nil => exact absurd rfl hne
    | cons c cs => exact ⟨c, cs, rfl⟩
  rw [pyStrip, List.cons_append, dropWhile_of_head c (cs ++ junk) (h c (by simp))]
  rw [show (c :: (cs ++ junk)).reverse = junk.reverse ++ (c :: cs).reverse by simp]
  by_cases hj : junk.reverse.dropWhile pySpace = []
  · have hall : ∀ x ∈ junk.reverse, pySpace x = true := List.dropWhile_eq_nil_iff.mp hj
    rw [dropWhile_append_all _ hall, hj]
    have : (c :: cs).reverse.dropWhile pySpace = (c :: cs).reverse := by
      cases hrev : (c :: cs).reverse with
      | nil => rfl
      | cons d ds =>
        refine dropWhile_of_head d ds (h d ?_)
        have : d ∈ (c :: cs).reverse := by rw [hrev]; simp
        exact List.mem_reverse.mp this
    rw [this, List.reverse_reverse]
    simp
  · rw [dropWhile_append_ne _ hj, List.reverse_append, List.reverse_reverse]

/-- Stripping is invariant under surrounding whitespace padding. -/
theorem pyStrip_pad (w1 w2 cs : List Char) (h1 : ∀ c ∈ w1, pySpace c = true)
    (h2 : ∀ c ∈ w2, pySpace c = true) :
    pyStrip (w1 ++ cs ++ w2) = pyStrip cs := by
  rw [pyStrip, pyStrip, List.append_assoc, dropWhile_append_all _ h1]
  by_cases hb : cs.dropWhile pySpace = []
  · have hall : ∀ x ∈ cs, pySpace x = true := List.dropWhile_eq_nil_iff.mp hb
    rw [dropWhile_append_all _ hall, hb]
    have hw2 : w2.dropWhile pySpace = [] := List.dropWhile_eq_nil_iff.mpr h2
    rw [hw2]
  · rw [dropWhile_append_ne _ hb, List.reverse_append]
    have h2r : ∀ c ∈ w2.reverse, pySpace c = true :=
      fun c hc => h2 c (List.mem_reverse.mp hc)
    rw [dropWhile_append_all _ h2r]

/-! ### Facts about rendered tokens -/

theorem renderToken_no_space (t : RawToken) : ∀ c ∈ renderToken t, pySpace c = false := by
  intro c hc
  simp only [renderToken, List.mem_cons, List.not_mem_nil, or_false] at hc
  rcases hc with rfl | rfl | rfl | rfl | rfl | rfl | rfl | rfl | rfl | rfl | rfl | rfl | rfl | rfl | rfl
  exacts [dirLat_pySpace _, pySpace_digitChar _, pySpace_digitChar _, pySpace_digitChar _,
    pySpace_digitChar _, pySpace_digitChar _, pySpace_digitChar _, dirLon_pySpace _,
    pySpace_digitChar _, pySpace_digitChar _, pySpace_digitChar _, pySpace_digitChar _,
    pySpace_digitChar _, pySpace_digitChar _, pySpace_digitChar _]

theorem renderToken_no_dot (t : RawToken) : ∀ c ∈ renderToken t, (c != '.') = true := by
  intro c hc
  simp only [renderToken, List.mem_cons, List.not_mem_nil, or_false] at hc
  rcases hc with rfl | rfl | rfl | rfl | rfl | rfl | rfl | rfl | rfl | rfl | rfl | rfl | rfl | rfl | rfl
  exacts [dirLat_bne_dot _, digitChar_bne_dot _, digitChar_bne_dot _, digitChar_bne_dot _,
    digitChar_bne_dot _, digitChar_bne_dot _, digitChar_bne_dot _, dirLon_bne_dot _,
    digitChar_bne_dot _, digitChar_bne_dot _, digitChar_bne_dot _, digitChar_bne_dot _,
    digitChar_bne_dot _, digitChar_bne_dot _, digitChar_bne_dot _]

theorem renderToken_length (t : RawToken) : (renderToken t).length = 15 := by
  simp [renderToken]

theorem renderToken_ne_nil (t : RawToken) : renderToken t ≠ [] := by
  simp [renderToken]

theorem val2_digits (n : ℕ) (h : n < 100) : val2 (digitChar (n / 10)) (digitChar n) = n := by
  rw [val2, digitVal_digitChar, digitVal_digitChar]
  omega

theorem val3_digits (n : ℕ) (h : n < 1000) :
    val3 (digitChar (n / 100)) (digitChar (n / 10)) (digitChar n) = n := by
  rw [val3, digitVal_digitChar, digitVal_digitChar, digitVal_digitChar]
  omega

/-- Central decode lemma: `parse_coordinate` on a rendered well-formed token
produces exactly the spec's decimal-degree value. -/
theorem parse_renderToken (t : RawToken) (h : WFToken t) :
    parse_coordinate (renderToken t) = some (decodeToken t) := by
  have hstrip : pyStrip (renderToken t) = renderToken t :=
    pyStrip_of_no_space _ (renderToken_no_space t)
  obtain ⟨ls, lad, lam, las, lw, lod, lom, los⟩ := t
  obtain ⟨h1, h2, h3, h4, h5, h6⟩ := h
  unfold parse_coordinate
  rw [hstrip]
  cases ls <;> cases lw <;>
    simp [renderToken, decodeToken, isDig_digitChar,
      val2_digits lad h1, val2_digits lam h2, val2_digits las h3,
      val3_digits lod h4, val2_digits lom h5, val2_digits los h6]

/-! ### Scanner lemmas -/

/-- `scanAux` does not depend on the fuel once it covers the list length. -/
theorem scanAux_congr : ∀ (f g : ℕ) (cs : List Char), cs.length ≤ f → cs.length ≤ g →
    scanAux f cs = scanAux g cs := by
  intro f
  induction f with
  | zero =>
    intro g cs hf _
    have hcs : cs = [] := List.length_eq_zero.mp (Nat.le_zero.mp hf)
    subst hcs
    cases g <;> rfl
  | succ f ih =>
    intro g cs hf hg
    cases g with
    | zero =>
      have hcs : cs = [] := List.length_eq_zero.mp (Nat.le_zero.mp hg)
      subst hcs
      rfl
    | succ g =>
      cases cs with
      | nil => rfl
      | cons c rest =>
        rw [scanAux, scanAux]
        simp only [List.length_cons] at hf hg
        by_cases htok : isTok15 (c :: rest) = true
        · rw [htok]
          simp only [if_true]
          have hd : (rest.drop 14).length ≤ f := by
            rw [List.length_drop]
            omega
          have hd2 : (rest.drop 14).length ≤ g := by
            rw [List.length_drop]
            omega
          rw [ih g _ hd hd2]
        · rw [Bool.not_eq_true] at htok
          rw [htok]
          simp only [Bool.false_eq_true, if_false]
          exact ih g rest (by omega) (by omega)

theorem scanTokens_nil : scanTokens [] = [] := rfl

theorem take15_cons (x1 x2 x3 x4 x5 x6 x7 x8 x9 x10 x11 x12 x13 x14 x15 : Char) (r : List Char) :
    (x1 :: x2 :: x3 :: x4 :: x5 :: x6 :: x7 :: x8 :: x9 :: x10 :: x11 :: x12 :: x13 :: x14 :: x15 :: r).take 15
      = [x1, x2, x3, x4, x5, x6, x7, x8, x9, x10, x11, x12, x13, x14, x15] := rfl

theorem drop14_cons (x1 x2 x3 x4 x5 x6 x7 x8 x9 x10 x11 x12 x13 x14 : Char) (r : List Char) :
    (x1 :: x2 :: x3 :: x4 :: x5 :: x6 :: x7 :: x8 :: x9 :: x10 :: x11 :: x12 :: x13 :: x14 :: r).drop 14
      = r := rfl

/-- A well-formed token at the head of the scan input is matched whole. -/
theorem scanTokens_token (t : RawToken) (h : WFToken t) (rest : List Char) :
    scanTokens (renderToken t ++ rest) = renderToken t :: scanTokens rest := by
  obtain ⟨ls, lad, lam, las, lw, lod, lom, los⟩ := t
  obtain ⟨h1, h2, h3, h4, h5, h6⟩ := h
  rw [scanTokens, scanTokens]
  have hlen : ((renderToken ⟨ls, lad, lam, las, lw, lod, lom, los⟩) ++ rest).length
      = (rest.length + 14) + 1 := by
    rw [List.length_append, renderToken_length]
    omega
  rw [hlen]
  simp only [renderToken, List.cons_append, List.nil_append]
  rw [scanAux]
  have htok : isTok15 ((if ls then 'S' else 'N') ::
      digitChar (lad / 10) :: digitChar lad ::
      digitChar (lam / 10) :: digitChar lam ::
      digitChar (las / 10) :: digitChar las ::
      (if lw then 'W' else 'E') ::
      digitChar (lod / 100) :: digitChar (lod / 10) :: digitChar lod ::
      digitChar (lom / 10) :: digitChar lom ::
      digitChar (los / 10) :: digitChar los :: rest) = true := by
    rw [isTok15]
    simp [isDig_digitChar, dirLat_ok, dirLon_ok]
  rw [htok]
  simp only [if_true]
  rw [take15_cons, drop14_cons,
    scanAux_congr (rest.length + 14) rest.length rest (by omega) (Nat.le_refl _)]

/-- A separator character that cannot start a token is skipped by the scan. -/
theorem scanTokens_sep (sep : Char) (hN : (sep == 'N') = false) (hS : (sep == 'S') = false)
    (u : RawToken) (zs : List Char) :
    scanTokens (sep :: (renderToken u ++ zs)) = scanTokens (renderToken u ++ zs) := by
  obtain ⟨ls, lad, lam, las, lw, lod, lom, los⟩ := u
  rw [scanTokens, List.length_cons, scanAux]
  have htok : isTok15 (sep :: (renderToken ⟨ls, lad, lam, las, lw, lod, lom, los⟩ ++ zs)) = false := by
    simp only [renderToken, List.cons_append, List.nil_append]
    rw [isTok15]
    simp [hN, hS]
  rw [htok]
  simp only [Bool.false_eq_true, if_false]
  rfl

/-- Join a list of token strings with a single separator character. -/
def joinSep (sep : Char) : List (List Char) → List Char
  | [] => []
  | [x] => x
  | x :: y :: ys => x ++ sep :: joinSep sep (y :: ys)

theorem joinSep_cons_ex (sep : Char) (x : List Char) (xs : List (List Char)) :
    ∃ z, joinSep sep (x :: xs) = x ++ z := by
  cases xs with
  | nil => exact ⟨[], by simp [joinSep]⟩
  | cons y ys => exact ⟨sep :: joinSep sep (y :: ys), rfl⟩

/-- Scanning a separator-joined list of well-formed rendered tokens followed
by a token-free tail recovers exactly the rendered tokens, in order. -/
theorem scan_join (sep : Char) (hN : (sep == 'N') = false) (hS : (sep == 'S') = false)
    (tail : List Char) (htail : scanTokens tail = []) :
    ∀ ts : List RawToken, (∀ t ∈ ts, WFToken t) →
      scanTokens (joinSep sep (ts.map renderToken) ++ tail) = ts.map renderToken := by
  intro ts
  induction ts with
  | nil => intro _; simpa [joinSep] using htail
  | cons t ts ih =>
    intro h
    cases ts with
    | nil =>
      simp only [List.map_cons, List.map_nil, joinSep]
      rw [scanTokens_token t (h t (by simp)) tail, htail]
    | cons t2 ts2 =>
      simp only [List.map_cons, joinSep, List.map_cons] at ih ⊢
      rw [List.append_assoc, scanTokens_token t (h t (by simp))]
      obtain ⟨z, hz⟩ := joinSep_cons_ex sep (renderToken t2) (ts2.map renderToken)
      rw [List.cons_append, hz, List.append_assoc,
        scanTokens_sep sep hN hS t2 (z ++ tail), ← List.append_assoc, ← hz]
      have h2 : ∀ u ∈ t2 :: ts2, WFToken u := fun u hu => h u (by simp at hu ⊢; tauto)
      rw [ih h2]

/-! ### Search lemmas -/

/-- If the marker regex matches at no position, the search fails. -/
theorem searchBounded_eq_none (text : List Char)
    (h : ∀ i, matchBoundedAt (List.drop i text) = none) : searchBounded text = none := by
  induction text with
  | nil => rfl
  | cons c rest ih =>
    have h0 := h 0
    rw [List.drop_zero] at h0
    rw [searchBounded, h0]
    exact ih (fun i => by have hi := h (i + 1); rwa [List.drop_succ_cons] at hi)

/-- A prefix with no marker match can be dropped from the search. -/
theorem searchBounded_append (pre text : List Char)
    (h : ∀ i, i < pre.length → matchBoundedAt (List.drop i (pre ++ text)) = none) :
    searchBounded (pre ++ text) = searchBounded text := by
  induction pre with
  | nil => rfl
  | cons c p ih =>
    have h0 := h 0 (by simp)
    rw [List.drop_zero, List.cons_append] at h0
    rw [List.cons_append, searchBounded, h0]
    show searchBounded (p ++ text) = searchBounded text
    refine ih (fun i hi => ?_)
    have hs := h (i + 1) (by simpa using Nat.succ_lt_succ hi)
    rwa [List.cons_append, List.drop_succ_cons] at hs

/-- Evaluation of one marker-regex match: marker, one space, then a span
headed by a non-whitespace, non-period character. -/
theorem matchBoundedAt_marker (c : Char) (cs : List Char)
    (hsp : pySpace c = false) (hdot : (c == '.') = false) :
    matchBoundedAt ("BOUNDED BY:".data ++ ' ' :: c :: cs)
      = some ((c :: cs).takeWhile (fun d => d != '.')) := by
  have h11 : ("BOUNDED BY:".data).length = 11 := rfl
  rw [matchBoundedAt, List.take_left' h11, List.drop_left' h11, if_pos (by decide)]
  show (if (' ' == '.') = true then none else _) = _
  rw [if_neg (by decide)]
  rw [List.dropWhile_cons]
  rw [if_pos (by decide), dropWhile_of_head c cs hsp]
  show (if (c == '.') = true then _ else some ((c :: cs).takeWhile (fun d => d != '.'))) = _
  rw [hdot]
  simp

/-- Joined rendered tokens contain no period character. -/
theorem joinSep_no_dot (sep : Char) (hdot : (sep != '.') = true) :
    ∀ ts : List RawToken, ∀ c ∈ joinSep sep (ts.map renderToken), (c != '.') = true := by
  intro ts
  induction ts with
  | nil => intro c hc; simp [joinSep] at hc
  | cons t ts ih =>
    intro c hc
    cases ts with
    | nil =>
      simp only [List.map_cons, List.map_nil, joinSep] at hc
      exact renderToken_no_dot t c hc
    | cons t2 ts2 =>
      simp only [List.map_cons, joinSep, List.mem_append, List.mem_cons] at hc
      rcases hc with hc | hc | hc
      · exact renderToken_no_dot t c hc
      · subst hc; exact hdot
      · exact ih c (by simpa [joinSep] using hc)

/-- Decoding the rendered tokens succeeds token by token. -/
theorem filterMap_parse_render (ts : List RawToken) (h : ∀ t ∈ ts, WFToken t) :
    (ts.map renderToken).filterMap parse_coordinate = ts.map decodeToken := by
  induction ts with
  | nil => rfl
  | cons t ts ih =>
    rw [List.map_cons, List.filterMap_cons, parse_renderToken t (h t (by simp)),
      List.map_cons, ih (fun u hu => h u (by simp [hu]))]

/-- The family of NOTAM texts used for the boundary-extraction claim:
the marker, one space, the separator-joined tokens, and a closing sentence
ended by a period. -/
def notamText (sep : Char) (ts : List RawToken) : List Char :=
  "BOUNDED BY:".data ++ ' ' :: (joinSep sep (ts.map renderToken) ++ ", BACK TO START.".data)

/-- If the regex matches at the very first position, the search returns
that capture. -/
theorem searchBounded_of_match (text : List Char) (cap : List Char)
    (h : matchBoundedAt text = some cap) : searchBounded text = some cap := by
  cases text with
  | nil =>
    rw [show matchBoundedAt ([] : List Char) = none from by decide] at h
    exact absurd h (by simp)
  | cons c rest => rw [searchBounded, h]

/-- Full evaluation of `parse_notam_area` on a text of the `notamText`
family placed after a marker-free prefix. -/
theorem parse_notam_area_eval (pre : List Char) (sep : Char) (t0 : RawToken) (ts : List RawToken)
    (hN : (sep == 'N') = false) (hS : (sep == 'S') = false) (hdot : (sep != '.') = true)
    (hWF : ∀ u ∈ t0 :: ts, WFToken u)
    (hpre : ∀ i, i < pre.length →
      matchBoundedAt (List.drop i (pre ++ notamText sep (t0 :: ts))) = none) :
    parse_notam_area (pre ++ notamText sep (t0 :: ts)) = some ((t0 :: ts).map decodeToken) := by
  obtain ⟨z, hz⟩ := joinSep_cons_ex sep (renderToken t0) (ts.map renderToken)
  rcases hr : renderToken t0 with _ | ⟨d, tl⟩
  · exact absurd hr (renderToken_ne_nil t0)
  have hdmem : d ∈ renderToken t0 := by rw [hr]; simp
  have hdsp : pySpace d = false := renderToken_no_space t0 d hdmem
  have hdbne : (d != '.') = true := renderToken_no_dot t0 d hdmem
  have hddot : (d == '.') = false := by simpa using hdbne
  have hall : ∀ c ∈ d :: (tl ++ z), (c != '.') = true := by
    intro c hc
    have hc2 : c ∈ renderToken t0 ++ z := by
      rw [hr, List.cons_append]
      exact hc
    rcases List.mem_append.mp hc2 with h1 | h1
    · exact renderToken_no_dot t0 c h1
    · refine joinSep_no_dot sep hdot (t0 :: ts) c ?_
      rw [List.map_cons, hz]
      exact List.mem_append.mpr (Or.inr h1)
  have hsearch : searchBounded (pre ++ notamText sep (t0 :: ts))
      = some (joinSep sep ((t0 :: ts).map renderToken) ++ ", BACK TO START".data) := by
    rw [searchBounded_append pre _ hpre, notamText]
    have hshape : joinSep sep ((t0 :: ts).map renderToken) ++ ", BACK TO START.".data
        = d :: ((tl ++ z) ++ ", BACK TO START.".data) := by
      rw [List.map_cons, hz, hr]
      simp
    rw [hshape]
    apply searchBounded_of_match
    rw [matchBoundedAt_marker d _ hdsp hddot]
    have hback : ((d :: (tl ++ z)) ++ ", BACK TO START.".data).takeWhile (fun e => e != '.')
        = (d :: (tl ++ z)) ++ ", BACK TO START".data := by
      rw [takeWhile_append_all _ hall]
      congr 1
    rw [show d :: ((tl ++ z) ++ ", BACK TO START.".data)
        = (d :: (tl ++ z)) ++ ", BACK TO START.".data by simp]
    rw [hback]
    have hjoin : joinSep sep ((t0 :: ts).map renderToken) = d :: (tl ++ z) := by
      rw [List.map_cons, hz, hr]
      simp
    rw [hjoin]
  have hscan : scanTokens (joinSep sep ((t0 :: ts).map renderToken) ++ ", BACK TO START".data)
      = (t0 :: ts).map renderToken :=
    scan_join sep hN hS _ (by decide) (t0 :: ts) hWF
  rw [parse_notam_area, hsearch]
  dsimp only
  rw [hscan, filterMap_parse_render (t0 :: ts) hWF]
  simp

/-! ### Great-circle calculator

`MapView.calculate_great_circle_info` modelled over `ℝ`.  Python's
`math.radians/degrees` are `x·π/180` and `x·180/π`; `math.atan2 y x` is the
argument of the complex number `x + i y` (with `atan2 0 0 = 0`, matching
IEEE 754); the float `%` with positive divisor is `x - y·⌊x/y⌋`.  The float
literals `6371.0`, `-1.0`, `1.0` are written `6371`, `-1`, `1`. -/

structure GreatCircleInfo where
  distance_km : ℝ
  distance_nm : ℝ
  azimuth : ℝ
  inclination : ℝ

noncomputable def radians (x : ℝ) : ℝ := x * (Real.pi / 180)

noncomputable def degrees (x : ℝ) : ℝ := x * (180 / Real.pi)

/-- Python `%` on floats (positive divisor). -/
noncomputable def pymod (x y : ℝ) : ℝ := x - y * ⌊x / y⌋

/-- `math.atan2 y x`. -/
noncomputable def atan2 (y x : ℝ) : ℝ := Complex.arg ⟨x, y⟩

/-- `MapView.calculate_great_circle_info`, line by line from the source. -/
noncomputable def calculate_great_circle_info (lat1 lon1 lat2 lon2 : ℝ) : GreatCircleInfo :=
  let lat1_rad := radians lat1
  let lon1_rad := radians lon1
  let lat2_rad := radians lat2
  let lon2_rad := radians lon2
  let dlat := lat2_rad - lat1_rad
  let dlon := lon2_rad - lon1_rad
  let a := Real.sin (dlat / 2) ^ 2 + Real.cos lat1_rad * Real.cos lat2_rad * Real.sin (dlon / 2) ^ 2
  let c := 2 * Real.arcsin (Real.sqrt a)
  let distance_km := 6371 * c
  let distance_nm := distance_km * 0.539957
  let y := Real.sin (lon2_rad - lon1_rad) * Real.cos lat2_rad
  let x := Real.cos lat1_rad * Real.sin lat2_rad -
    Real.sin lat1_rad * Real.cos lat2_rad * Real.cos (lon2_rad - lon1_rad)
  let azimuth := pymod (degrees (atan2 y x) + 360) 360
  let azimuth_rad := radians azimuth
  let cos_inclination := Real.cos lat1_rad * Real.sin azimuth_rad
  let cos_inclination2 := max (-1) (min 1 cos_inclination)
  let inclination := degrees (Real.arccos cos_inclination2)
  let inclination2 := if inclination < 0 then |inclination| else inclination
  ⟨distance_km, distance_nm, azimuth, inclination2⟩

/-- The reference algorithm exactly as §4.2 of the spec words it:
haversine distance `2R·asin(√a)`, nautical miles by `·0.539957`, the
`atan2` initial bearing normalized into `[0, 360)`, and
`acos` of the clamped `cos(lat1)·sin(azimuth_rad)` in degrees. -/
noncomputable def great_circle_ref (lat1 lon1 lat2 lon2 : ℝ) : GreatCircleInfo :=
  let lat1_rad := radians lat1
  let lon1_rad := radians lon1
  let lat2_rad := radians lat2
  let lon2_rad := radians lon2
  let dlat := lat2_rad - lat1_rad
  let dlon := lon2_rad - lon1_rad
  let a := Real.sin (dlat / 2) ^ 2 + Real.cos lat1_rad * Real.cos lat2_rad * Real.sin (dlon / 2) ^ 2
  let distance_km := 2 * 6371 * Real.arcsin (Real.sqrt a)
  let distance_nm := distance_km * 0.539957
  let th := degrees (atan2 (Real.sin (lon2_rad - lon1_rad) * Real.cos lat2_rad)
    (Real.cos lat1_rad * Real.sin lat2_rad -
      Real.sin lat1_rad * Real.cos lat2_rad * Real.cos (lon2_rad - lon1_rad)))
  let azimuth := th - 360 * ⌊th / 360⌋
  let inclination := degrees (Real.arccos (max (-1) (min 1 (Real.cos lat1_rad * Real.sin (radians azimuth)))))
  ⟨distance_km, distance_nm, azimuth, inclination⟩

/-! ### Great-circle lemmas -/

theorem pymod_add360 (x : ℝ) : pymod (x + 360) 360 = x - 360 * ⌊x / 360⌋ := by
  rw [pymod]
  have h : (x + 360) / 360 = x / 360 + 1 := by ring
  rw [h, Int.floor_add_one]
  push_cast
  ring

theorem sub_floor_nonneg (x : ℝ) : 0 ≤ x - 360 * ⌊x / 360⌋ := by
  have h1 : (⌊x / 360⌋ : ℝ) ≤ x / 360 := Int.floor_le _
  linarith

theorem sub_floor_lt (x : ℝ) : x - 360 * ⌊x / 360⌋ < 360 := by
  have h2 : x / 360 < ⌊x / 360⌋ + 1 := Int.lt_floor_add_one _
  linarith

theorem deg_arccos_nonneg (z : ℝ) : 0 ≤ degrees (Real.arccos z) := by
  rw [degrees]
  exact mul_nonneg (Real.arccos_nonneg z) (by positivity)

theorem deg_arccos_le_180 (z : ℝ) : degrees (Real.arccos z) ≤ 180 := by
  rw [degrees]
  calc Real.arccos z * (180 / Real.pi) ≤ Real.pi * (180 / Real.pi) :=
        mul_le_mul_of_nonneg_right (Real.arccos_le_pi z) (by positivity)
    _ = 180 := by field_simp

theorem ite_abs_of_nonneg (z : ℝ) (h : 0 ≤ z) : (if z < 0 then |z| else z) = z :=
  if_neg (not_lt.mpr h)

/-- The source computation coincides with the spec's reference algorithm
on every real input. -/
theorem gc_eq_ref (lat1 lon1 lat2 lon2 : ℝ) :
    calculate_great_circle_info lat1 lon1 lat2 lon2 = great_circle_ref lat1 lon1 lat2 lon2 := by
  simp only [calculate_great_circle_info, great_circle_ref]
  rw [pymod_add360, ite_abs_of_nonneg _ (deg_arccos_nonneg _)]
  simp only [GreatCircleInfo.mk.injEq]
  refine ⟨by ring, by ring, trivial, trivial⟩

/-- Shape facts produced without any hypothesis on the inputs: the
nautical-mile conversion and the ranges of azimuth and inclination. -/
theorem gc_fields (lat1 lon1 lat2 lon2 : ℝ) :
    (calculate_great_circle_info lat1 lon1 lat2 lon2).distance_nm
        = (calculate_great_circle_info lat1 lon1 lat2 lon2).distance_km * 0.539957 ∧
    0 ≤ (calculate_great_circle_info lat1 lon1 lat2 lon2).azimuth ∧
    (calculate_great_circle_info lat1 lon1 lat2 lon2).azimuth < 360 ∧
    0 ≤ (calculate_great_circle_info lat1 lon1 lat2 lon2).inclination ∧
    (calculate_great_circle_info lat1 lon1 lat2 lon2).inclination ≤ 180 := by
  simp only [calculate_great_circle_info]
  rw [pymod_add360, ite_abs_of_nonneg _ (deg_arccos_nonneg _)]
  exact ⟨trivial, sub_floor_nonneg _, sub_floor_lt _, deg_arccos_nonneg _, deg_arccos_le_180 _⟩

/-- Degenerate same-point evaluation: the full result record. -/
theorem gc_same_point (lat lon : ℝ) :
    calculate_great_circle_info lat lon lat lon = ⟨0, 0, 0, 90⟩ := by
  simp only [calculate_great_circle_info]
  rw [sub_self (radians lat), sub_self (radians lon)]
  have hs0 : Real.sin ((0 : ℝ) / 2) = 0 := by norm_num
  rw [hs0]
  have ha : (0 : ℝ) ^ 2 + Real.cos (radians lat) * Real.cos (radians lat) * 0 ^ 2 = 0 := by ring
  rw [ha, Real.sqrt_zero, Real.arcsin_zero]
  have hx : Real.cos (radians lat) * Real.sin (radians lat)
      - Real.sin (radians lat) * Real.cos (radians lat) * Real.cos 0 = 0 := by
    rw [Real.cos_zero]
    ring
  have hy : Real.sin 0 * Real.cos (radians lat) = 0 := by
    rw [Real.sin_zero]
    ring
  rw [hx, hy]
  have hatan : atan2 0 0 = 0 := by
    show Complex.arg ⟨0, 0⟩ = 0
    exact Complex.arg_zero
  rw [hatan]
  have hdeg0 : degrees 0 = 0 := by rw [degrees]; ring
  rw [hdeg0]
  have hmod : pymod (0 + 360) 360 = 0 := by
    rw [pymod]
    norm_num
  rw [hmod]
  have hr0 : radians 0 = 0 := by rw [radians]; ring
  rw [hr0, Real.sin_zero, mul_zero (Real.cos (radians lat))]
  have hclamp : max (-1 : ℝ) (min 1 0) = 0 := by norm_num
  rw [hclamp, Real.arccos_zero]
  have h90 : degrees (Real.pi / 2) = 90 := by
    rw [degrees]
    field_simp
    ring
  rw [h90, ite_abs_of_nonneg _ (by norm_num : (0:ℝ) ≤ 90)]
  simp only [GreatCircleInfo.mk.injEq]
  norm_num

/-- Haversine distance is symmetric in the two endpoints. -/
theorem gc_dist_symm (lat1 lon1 lat2 lon2 : ℝ) :
    (calculate_great_circle_info lat1 lon1 lat2 lon2).distance_km
      = (calculate_great_circle_info lat2 lon2 lat1 lon1).distance_km := by
  simp only [calculate_great_circle_info]
  have e1 : ∀ u v : ℝ, Real.sin ((u - v) / 2) ^ 2 = Real.sin ((v - u) / 2) ^ 2 := by
    intro u v
    rw [show (u - v) / 2 = -((v - u) / 2) by ring, Real.sin_neg]
    ring
  rw [e1 (radians lat2) (radians lat1), e1 (radians lon2) (radians lon1)]
  ring_nf

theorem degrees_pi_div_two : degrees (Real.pi / 2) = 90 := by
  rw [degrees]
  field_simp
  ring

/-- Azimuth of the eastward quarter-equator route. -/
theorem gc_az_east : (calculate_great_circle_info 0 0 0 90).azimuth = 90 := by
  simp only [calculate_great_circle_info]
  have hr0 : radians 0 = 0 := by rw [radians]; ring
  have hr90 : radians 90 = Real.pi / 2 := by rw [radians]; ring
  rw [hr0, hr90, Real.sin_zero, Real.cos_zero, sub_zero, Real.sin_pi_div_two]
  norm_num
  have hatan : atan2 1 0 = Real.pi / 2 := by
    show Complex.arg ⟨0, 1⟩ = _
    rw [show (⟨0, 1⟩ : ℂ) = Complex.I from rfl]
    exact Complex.arg_I
  rw [hatan, degrees_pi_div_two]
  rw [pymod]
  norm_num

/-- Azimuth of the reverse (westward) route differs: it is 270. -/
theorem gc_az_west : (calculate_great_circle_info 0 90 0 0).azimuth = 270 := by
  simp only [calculate_great_circle_info]
  have hr0 : radians 0 = 0 := by rw [radians]; ring
  have hr90 : radians 90 = Real.pi / 2 := by rw [radians]; ring
  rw [hr0, hr90, Real.sin_zero, Real.cos_zero, zero_sub, Real.sin_neg, Real.sin_pi_div_two]
  norm_num
  have hatan : atan2 (-1) 0 = -(Real.pi / 2) := by
    show Complex.arg ⟨0, -1⟩ = _
    rw [show (⟨0, -1⟩ : ℂ) = -Complex.I by apply Complex.ext <;> simp]
    exact Complex.arg_neg_I
  rw [hatan]
  have hdeg : degrees (-(Real.pi / 2)) = -90 := by
    rw [degrees]
    field_simp
    ring
  rw [hdeg, pymod]
  norm_num

/-! ### Antipodal points (used to state the azimuth asymmetry) -/

/-- Two `(lat, lon)` points are antipodal when the latitudes are opposite
and the longitudes differ by 180 degrees. -/
def Antipodal (p q : ℝ × ℝ) : Prop :=
  q.1 = -p.1 ∧ (q.2 = p.2 + 180 ∨ q.2 = p.2 - 180)

/-! ### Claim theorems -/

/-- Claim C1: for every pair of inputs, `calculate_great_circle_info`
returns a record equal to the spec's reference algorithm (haversine
distance on radius 6371 km, nautical miles by `·0.539957`, the `atan2`
initial bearing normalized into `[0, 360)`, and the clamped-`acos`
inclination), with azimuth in `[0, 360)` and inclination in `[0, 180]`. -/
theorem great_circle_matches_reference (lat1 lon1 lat2 lon2 : ℝ) :
    calculate_great_circle_info lat1 lon1 lat2 lon2 = great_circle_ref lat1 lon1 lat2 lon2 ∧
    0 ≤ (calculate_great_circle_info lat1 lon1 lat2 lon2).azimuth ∧
    (calculate_great_circle_info lat1 lon1 lat2 lon2).azimuth < 360 ∧
    0 ≤ (calculate_great_circle_info lat1 lon1 lat2 lon2).inclination ∧
    (calculate_great_circle_info lat1 lon1 lat2 lon2).inclination ≤ 180 :=
  ⟨gc_eq_ref lat1 lon1 lat2 lon2, (gc_fields lat1 lon1 lat2 lon2).2⟩

/-- Claim C8: the degenerate same-point call returns distance 0 and
azimuth 0 (no NaN: the modelled `atan2 0 0` is 0). -/
theorem great_circle_same_point_zero (lat lon : ℝ) :
    (calculate_great_circle_info lat lon lat lon).distance_km = 0 ∧
    (calculate_great_circle_info lat lon lat lon).azimuth = 0 := by
  rw [gc_same_point]
  exact ⟨rfl, rfl⟩

/-- Claim C9: great-circle distance is symmetric in its endpoints, while
the azimuth is not symmetric: the non-identical, non-antipodal pair
`(0,0)`, `(0,90)` has azimuths 90 and 270. -/
theorem great_circle_distance_symm_azimuth_asymm :
    (∀ lat1 lon1 lat2 lon2 : ℝ,
      (calculate_great_circle_info lat1 lon1 lat2 lon2).distance_km
        = (calculate_great_circle_info lat2 lon2 lat1 lon1).distance_km) ∧
    (∃ a b : ℝ × ℝ, a ≠ b ∧ ¬ Antipodal a b ∧
      (calculate_great_circle_info a.1 a.2 b.1 b.2).azimuth
        ≠ (calculate_great_circle_info b.1 b.2 a.1 a.2).azimuth) := by
  refine ⟨gc_dist_symm, ⟨(0, 0), (0, 90), ?_, ?_, ?_⟩⟩
  · intro h
    have := congrArg Prod.snd h
    norm_num at this
  · rw [Antipodal]
    push_neg
    intro _
    constructor <;> norm_num
  · show (calculate_great_circle_info 0 0 0 90).azimuth
        ≠ (calculate_great_circle_info 0 90 0 0).azimuth
    rw [gc_az_east, gc_az_west]
    norm_num

/-- Claim C5 counterexample: a latitude of 100 violates the range
invariant, yet the calculator returns the ordinary result record
`⟨0, 0, 0, 90⟩` instead of failing. -/
theorem great_circle_no_range_check_counterexample :
    (90 : ℝ) < 100 ∧ calculate_great_circle_info 100 0 100 0 = ⟨0, 0, 0, 90⟩ :=
  ⟨by norm_num, gc_same_point 100 0⟩

/-- Claim C5 (amended): the calculator performs no input validation; even
when a coordinate is out of range it returns the usual well-formed record
(nautical-mile conversion satisfied, azimuth in `[0, 360)`, inclination in
`[0, 180]`) rather than failing. -/
theorem great_circle_total_on_out_of_range (lat1 lon1 lat2 lon2 : ℝ)
    (_h : 90 < |lat1| ∨ 90 < |lat2| ∨ 180 < |lon1| ∨ 180 < |lon2|) :
    (calculate_great_circle_info lat1 lon1 lat2 lon2).distance_nm
        = (calculate_great_circle_info lat1 lon1 lat2 lon2).distance_km * 0.539957 ∧
    0 ≤ (calculate_great_circle_info lat1 lon1 lat2 lon2).azimuth ∧
    (calculate_great_circle_info lat1 lon1 lat2 lon2).azimuth < 360 ∧
    0 ≤ (calculate_great_circle_info lat1 lon1 lat2 lon2).inclination ∧
    (calculate_great_circle_info lat1 lon1 lat2 lon2).inclination ≤ 180 :=
  gc_fields lat1 lon1 lat2 lon2

theorem great_circle_total_on_out_of_range_witness :
    (90 < |(100 : ℝ)| ∨ 90 < |(0 : ℝ)| ∨ 180 < |(0 : ℝ)| ∨ 180 < |(0 : ℝ)|) ∧
    ((calculate_great_circle_info 100 0 0 0).distance_nm
        = (calculate_great_circle_info 100 0 0 0).distance_km * 0.539957 ∧
    0 ≤ (calculate_great_circle_info 100 0 0 0).azimuth ∧
    (calculate_great_circle_info 100 0 0 0).azimuth < 360 ∧
    0 ≤ (calculate_great_circle_info 100 0 0 0).inclination ∧
    (calculate_great_circle_info 100 0 0 0).inclination ≤ 180) :=
  ⟨Or.inl (by norm_num), great_circle_total_on_out_of_range 100 0 0 0 (Or.inl (by norm_num))⟩

/-- Claim C2: `parse_coordinate` on any string matching the token pattern
returns `deg + min/60 + sec/3600` on each axis, negated for `S`/`W`; no
validation that minutes/seconds are below 60 is performed, so any
two-digit value (60 or more included) decodes, producing the
corresponding out-of-range decimal degrees. -/
theorem parse_coordinate_decodes_tokens (t : RawToken) (h : WFToken t) :
    parse_coordinate (renderToken t)
      = some ((if t.latS
            then -((t.latDeg : ℚ) + (t.latMin : ℚ) / 60 + (t.latSec : ℚ) / 3600)
            else (t.latDeg : ℚ) + (t.latMin : ℚ) / 60 + (t.latSec : ℚ) / 3600),
          (if t.lonW
            then -((t.lonDeg : ℚ) + (t.lonMin : ℚ) / 60 + (t.lonSec : ℚ) / 3600)
            else (t.lonDeg : ℚ) + (t.lonMin : ℚ) / 60 + (t.lonSec : ℚ) / 3600)) := by
  rw [parse_renderToken t h, decodeToken]
  cases t.latS <;> cases t.lonW <;> norm_num

theorem parse_coordinate_decodes_tokens_witness :
    WFToken ⟨false, 30, 60, 90, false, 110, 61, 75⟩ ∧
    parse_coordinate (renderToken ⟨false, 30, 60, 90, false, 110, 61, 75⟩)
      = some (1241 / 40, 8883 / 80) := by
  have hwf : WFToken ⟨false, 30, 60, 90, false, 110, 61, 75⟩ := by decide
  refine ⟨hwf, ?_⟩
  rw [parse_coordinate_decodes_tokens _ hwf]
  norm_num

/-- Claim C4 counterexample: this string does not match the pattern
exactly (it has trailing characters after a matching 15-character prefix),
yet `parse_coordinate` succeeds, because `re.match` only anchors at the
start of the string. -/
theorem parse_coordinate_trailing_counterexample :
    parse_coordinate ("N301900E1103700XYZ".data) = some (1819 / 60, 6637 / 60) := by
  have h : pyStrip ("N301900E1103700XYZ".data) = "N301900E1103700XYZ".data := by decide
  rw [parse_coordinate, h]
  simp [val2, val3, digitVal, isDig]
  norm_num

/-- Claim C4 (amended): `parse_coordinate` fails only when the stripped
input does not *begin* with the token pattern; a matching 15-character
prefix followed by arbitrary trailing characters still decodes to the
prefix's value. -/
theorem parse_coordinate_accepts_trailing (t : RawToken) (h : WFToken t) (junk : List Char) :
    parse_coordinate (renderToken t ++ junk) = some (decodeToken t) := by
  have hstrip : pyStrip (renderToken t ++ junk)
      = renderToken t ++ (junk.reverse.dropWhile pySpace).reverse :=
    pyStrip_token_append _ _ (renderToken_ne_nil t) (renderToken_no_space t)
  obtain ⟨ls, lad, lam, las, lw, lod, lom, los⟩ := t
  obtain ⟨h1, h2, h3, h4, h5, h6⟩ := h
  unfold parse_coordinate
  rw [hstrip]
  simp only [renderToken, List.cons_append, List.nil_append]
  simp [decodeToken, isDig_digitChar,
    val2_digits lad h1, val2_digits lam h2, val2_digits las h3,
    val3_digits lod h4, val2_digits lom h5, val2_digits los h6]

theorem parse_coordinate_accepts_trailing_witness :
    WFToken ⟨false, 30, 19, 0, false, 110, 37, 0⟩ ∧
    parse_coordinate (renderToken ⟨false, 30, 19, 0, false, 110, 37, 0⟩ ++ "XY".data)
      = some (decodeToken ⟨false, 30, 19, 0, false, 110, 37, 0⟩) :=
  ⟨by decide, parse_coordinate_accepts_trailing _ (by decide) _⟩

/-- Claim C6: the centroid of an empty polygon is a failure (`None`), and
for every non-empty polygon the result is the arithmetic mean of the
vertex latitudes and longitudes (characterized multiplicatively:
`mean · length = sum`). -/
theorem polygon_center_empty_and_mean :
    calculate_polygon_center [] = none ∧
    ∀ cs : List (ℚ × ℚ), cs ≠ [] →
      ∃ c, calculate_polygon_center cs = some c ∧
        c.1 * cs.length = (cs.map Prod.fst).sum ∧
        c.2 * cs.length = (cs.map Prod.snd).sum := by
  refine ⟨rfl, fun cs hne => ?_⟩
  have hn : (cs.length : ℚ) ≠ 0 :=
    Nat.cast_ne_zero.mpr (fun h => hne (List.length_eq_zero.mp h))
  refine ⟨((cs.map Prod.fst).sum / cs.length, (cs.map Prod.snd).sum / cs.length), ?_, ?_, ?_⟩
  · rw [calculate_polygon_center, if_neg hne]
  · exact div_mul_cancel₀ _ hn
  · exact div_mul_cancel₀ _ hn

theorem polygon_center_empty_and_mean_witness :
    ([((30 : ℚ), (110 : ℚ)), (31, 111)] ≠ ([] : List (ℚ × ℚ))) ∧
    ∃ c, calculate_polygon_center [((30 : ℚ), (110 : ℚ)), (31, 111)] = some c ∧
      c.1 * ([((30 : ℚ), (110 : ℚ)), (31, 111)] : List (ℚ × ℚ)).length
          = (([((30 : ℚ), (110 : ℚ)), (31, 111)] : List (ℚ × ℚ)).map Prod.fst).sum ∧
      c.2 * ([((30 : ℚ), (110 : ℚ)), (31, 111)] : List (ℚ × ℚ)).length
          = (([((30 : ℚ), (110 : ℚ)), (31, 111)] : List (ℚ × ℚ)).map Prod.snd).sum :=
  ⟨by simp, polygon_center_empty_and_mean.2 _ (by simp)⟩

/-- Claim C7: when no coordinate token is found — the marker regex matches
nowhere, or a span is captured but contains no token — `parse_notam_area`
returns the failure value `None`. -/
theorem parse_notam_area_no_boundary (text : List Char)
    (h : (∀ i, matchBoundedAt (List.drop i text) = none) ∨
      ∃ cap, searchBounded text = some cap ∧ scanTokens cap = []) :
    parse_notam_area text = none := by
  rcases h with h | ⟨cap, h1, h2⟩
  · rw [parse_notam_area, searchBounded_eq_none text h]
  · rw [parse_notam_area, h1]
    dsimp only
    rw [h2]
    simp

theorem parse_notam_area_no_boundary_witness :
    parse_notam_area ("no marker here".data) = none := by
  refine parse_notam_area_no_boundary _ (Or.inl fun i => ?_)
  rcases Nat.lt_or_ge i 14 with hi | hi
  · interval_cases i <;> decide
  · rw [List.drop_eq_nil_of_le (by simpa using hi)]
    decide

/-- Claim C10: `parse_coordinate` is invariant under surrounding
whitespace, because the input is stripped before matching. -/
theorem parse_coordinate_strip_invariant (w1 w2 cs : List Char)
    (h1 : ∀ c ∈ w1, pySpace c = true) (h2 : ∀ c ∈ w2, pySpace c = true) :
    parse_coordinate (w1 ++ cs ++ w2) = parse_coordinate cs := by
  rw [parse_coordinate, parse_coordinate, pyStrip_pad w1 w2 cs h1 h2]

theorem parse_coordinate_strip_invariant_witness :
    parse_coordinate ("  ".data ++ "N301900E1103700".data ++ " ".data)
      = parse_coordinate ("N301900E1103700".data) :=
  parse_coordinate_strip_invariant _ _ _ (by decide) (by decide)

theorem parse_notam_area_eval_witness :
    parse_notam_area
      ("...BOUNDED BY: N301900E1103700-N301700E1110000-N293800E1105700-N294000E1103400, BACK TO START.".data)
      = some [(1819 / 60, 6637 / 60), (1817 / 60, 111), (889 / 30, 2219 / 20), (89 / 3, 3317 / 30)] := by
  have htext :
      "...BOUNDED BY: N301900E1103700-N301700E1110000-N293800E1105700-N294000E1103400, BACK TO START.".data
      = "...".data ++ notamText '-'
          [⟨false, 30, 19, 0, false, 110, 37, 0⟩, ⟨false, 30, 17, 0, false, 111, 0, 0⟩,
            ⟨false, 29, 38, 0, false, 110, 57, 0⟩, ⟨false, 29, 40, 0, false, 110, 34, 0⟩] := by
    decide
  rw [htext]
  rw [parse_notam_area_eval "...".data '-' ⟨false, 30, 19, 0, false, 110, 37, 0⟩
      [⟨false, 30, 17, 0, false, 111, 0, 0⟩, ⟨false, 29, 38, 0, false, 110, 57, 0⟩,
        ⟨false, 29, 40, 0, false, 110, 34, 0⟩]
      (by decide) (by decide) (by decide) (by decide) ?hpre]
  · simp [decodeToken]
    norm_num
  case hpre =>
    intro i hi
    have h3 : ("...".data).length = 3 := rfl
    rw [h3] at hi
    interval_cases i <;> decide
